/-
  Verification development for the LLMSimu repository (client-side LLM
  pipeline animation).  The JavaScript sources are shallowly embedded:
  JS numbers are modelled as exact rationals (`ℚ`) wrapped in `JSNum`
  where NaN/Infinity behaviour matters, strings as `String`, and the
  mutable `CONFIG` object as an explicit `ConfigState` value threaded
  through the functions that read or write it.
-/
import Mathlib

namespace LLMSimu

/-! ## config.js -/

/-- JS number semantics for the places where `undefined`/division can
produce non-finite values: a JS number is either a finite rational,
NaN, or a signed infinity. -/
inductive JSNum where
  | num (q : ℚ)
  | nan
  | inf
  | negInf
  deriving DecidableEq, Repr

/-- JS division on `JSNum`: `x / 0` is `±Infinity` for `x ≠ 0`,
`0 / 0` is `NaN`, and `NaN` propagates. -/
def JSNum.div : JSNum → JSNum → JSNum
  | .num a, .num b =>
      if b = 0 then
        if a = 0 then .nan else if 0 < a then .inf else .negInf
      else .num (a / b)
  | .nan, _ => .nan
  | _, .nan => .nan
  | .num _, .inf => .num 0
  | .num _, .negInf => .num 0
  | .inf, .num b => if 0 ≤ b then .inf else .negInf
  | .negInf, .num b => if 0 ≤ b then .negInf else .inf
  | .inf, .inf => .nan
  | .inf, .negInf => .nan
  | .negInf, .inf => .nan
  | .negInf, .negInf => .nan

/-- Model of `CONFIG.timing` from config.js: base duration (ms) per stage key.
An unrecognized key reads as JS `undefined`, modelled as `none`. -/
def timingLookup : String → Option ℚ
  | "tokenDelay" => some 100
  | "layerTransition" => some 500
  | "embeddingBuild" => some 800
  | "attentionDraw" => some 1000
  | "ffnProcess" => some 1200
  | "outputTokenDelay" => some 50
  | _ => none

/-- The six recognized timing keys of `CONFIG.timing`. -/
def timingKeys : List String :=
  ["tokenDelay", "layerTransition", "embeddingBuild", "attentionDraw",
   "ffnProcess", "outputTokenDelay"]

/-- The mutable part of `CONFIG` that the claims touch:
`CONFIG.speedMultiplier`. -/
structure ConfigState where
  speedMultiplier : ℚ
  deriving DecidableEq, Repr

/-- Model of `CONFIG` as initially declared: `speedMultiplier: 1`. -/
def initialConfig : ConfigState := ⟨1⟩

/-- config.js `getTiming(key)`: `CONFIG.timing[key] / CONFIG.speedMultiplier`.
A missing key yields `undefined`, and `undefined / m` is `NaN` in JS. -/
def getTiming (s : ConfigState) (key : String) : JSNum :=
  match timingLookup key with
  | some d => JSNum.div (.num d) (.num s.speedMultiplier)
  | none => JSNum.nan

/-- config.js `setSpeed(multiplier)`: assigns `CONFIG.speedMultiplier`
unconditionally.  (The accompanying CSS custom-property write
`--speed-multiplier = 1/multiplier` is presentation-only and not part
of the state the claims observe.) -/
def setSpeed (multiplier : ℚ) (s : ConfigState) : ConfigState :=
  { s with speedMultiplier := multiplier }

/-! ## tokenizer.js -/

/-- Characters matched by the regex class `[\w']` (JS `\w` is
`[A-Za-z0-9_]`, plus the apostrophe added in the class). -/
def isWordOrApos (c : Char) : Bool :=
  (('a' ≤ c && c ≤ 'z') || ('A' ≤ c && c ≤ 'Z') ||
   ('0' ≤ c && c ≤ '9') || c = '_' || c = '\'')

/-- Characters matched by the second alternative
`[.,!?;:'"()\[\]{}—–-]` of the tokenizer regex. -/
def isPunct (c : Char) : Bool :=
  c ∈ ['.', ',', '!', '?', ';', ':', '\'', '"', '(', ')', '[', ']',
       '{', '}', '—', '–', '-']

/-- One left-to-right pass implementing
`text.match(/[\w']+|[.,!?;:'"()\[\]{}—–-]/g) || []`: a maximal run of
`[\w']` characters forms one token (the first alternative is tried
first and is greedy), a punctuation character forms a single-character
token, and any other character is skipped.  `cur` carries the current
word run, reversed. -/
def rawTokensAux : List Char → List Char → List String
  | [], cur => if cur.isEmpty then [] else [String.mk cur.reverse]
  | c :: rest, cur =>
      if isWordOrApos c then
        rawTokensAux rest (c :: cur)
      else
        (if cur.isEmpty then [] else [String.mk cur.reverse]) ++
          (if isPunct c then [String.mk [c]] else []) ++
          rawTokensAux rest []

/-- tokenizer.js: `const rawTokens = text.match(...) || []`. -/
def rawTokens (text : String) : List String :=
  rawTokensAux text.data []

/-- tokenizer.js `tokenize(text)`:
`this.tokens = ['<BOS>', ...rawTokens, '<EOS>']`. -/
def tokenize (text : String) : List String :=
  ["<BOS>"] ++ rawTokens text ++ ["<EOS>"]

/-! ## output.js — ZenMuxAPI.streamCompletion

The streaming client is embedded as a trace semantics: the callbacks
`onToken` / `onComplete` / `onError` become events appended to a trace,
and the outcome of `fetch` plus the sequence of chunks delivered by
`response.body.getReader()` become an explicit `FetchOutcome` value.
`JSON.parse` followed by `parsed.choices?.[0]?.delta` and the truthiness
test on `delta?.content` is abstracted as an oracle
`extract : String → Option String`: `some t` when a content string `t`
is obtained, `none` when the JSON is invalid (the `catch` skips the
line) or carries no non-empty content (the `if` skips it) — both leave
the trace unchanged, so the abstraction loses nothing observable. -/

/-- A callback invocation of `streamCompletion`. -/
inductive Event where
  | token (s : String)
  | complete
  | error (msg : String)
  deriving DecidableEq, Repr

/-- JS `String.prototype.split('\n')` on the character list of a
string: pieces between newline characters, in order, empty pieces
included (`''.split('\n')` is `['']`).  `cur` carries the current
piece, reversed. -/
def jsSplitNewlineAux : List Char → List Char → List (List Char)
  | [], cur => [cur.reverse]
  | c :: rest, cur =>
      if c = '\n' then cur.reverse :: jsSplitNewlineAux rest []
      else jsSplitNewlineAux rest (c :: cur)

/-- JS `buffer.split('\n')` as used in the read loop. -/
def jsSplitNewline (s : List Char) : List (List Char) :=
  jsSplitNewlineAux s []

/-- The whitespace class removed by JS `String.prototype.trim`
(ASCII whitespace plus no-break space; the exotic Unicode space
characters never occur in the SSE streams modelled here). -/
def jsWhitespace (c : Char) : Bool :=
  c ∈ [' ', '\t', '\n', '\r', '\x0b', '\x0c', '\xa0']

/-- JS `String.prototype.trim` on a character list. -/
def jsTrim (s : List Char) : List Char :=
  ((s.dropWhile jsWhitespace).reverse.dropWhile jsWhitespace).reverse

/-- What the single `fetch` of `streamCompletion` does: throw (the
`fetch` call itself rejects), or return a response with its `ok` flag,
`status`, error body text, the list of (already text-decoded) body
chunks that `reader.read()` delivers, and `readError`: what the read
after those chunks does — `none` when it resolves with `done`,
`some msg` when it rejects mid-stream with `msg` (a transport failure
after part of the body has been delivered, handled by the same
`catch`). -/
inductive FetchOutcome where
  | throw (msg : String)
  | resp (ok : Bool) (status : Nat) (errorText : String)
      (chunks : List String) (readError : Option String)
  deriving Repr

/-- The inner `for (const line of lines)` loop of `streamCompletion`:
a `data: `-prefixed line is sliced past the prefix and trimmed; the
`[DONE]` sentinel returns from the whole function (flag `true`),
otherwise the extracted content (if any) fires `onToken`.  Returns the
token events fired and whether `[DONE]` was reached. -/
def handleLines (extract : String → Option String) :
    List (List Char) → List Event × Bool
  | [] => ([], false)
  | line :: rest =>
      if "data: ".data.isPrefixOf line then
        let data := jsTrim (line.drop 6)
        if data = "[DONE]".data then ([], true)
        else
          match extract (String.mk data) with
          | some tok =>
              let r := handleLines extract rest
              (Event.token tok :: r.1, r.2)
          | none => handleLines extract rest
      else handleLines extract rest

/-- The `while (true)` read loop of `streamCompletion`: each chunk is
appended to `buffer`, the buffer is split on `'\n'`, the trailing
(possibly incomplete) piece is kept as the new buffer
(`buffer = lines.pop() || ''`), and the complete lines are processed.
`[DONE]` fires `onComplete` and returns.  After the chunks, the next
`await reader.read()` either resolves with `done` — the loop breaks
and `onComplete` fires (output.js line 237) — or rejects mid-stream
with `readError`, which the surrounding `catch` turns into `onError`
after whatever `onToken` calls the delivered chunks already fired. -/
def readLoop (extract : String → Option String) (readError : Option String)
    (buffer : List Char) : List String → List Event
  | [] =>
      match readError with
      | none => [Event.complete]
      | some m => [Event.error m]
  | chunk :: rest =>
      let lines := jsSplitNewline (buffer ++ chunk.data)
      let r := handleLines extract lines.dropLast
      if r.2 then r.1 ++ [Event.complete]
      else r.1 ++ readLoop extract readError ((lines.getLast?).getD []) rest

/-- output.js `ZenMuxAPI.streamCompletion`: a thrown `fetch` is caught
and fires `onError`; a non-ok response throws
`` `API Error: ${response.status} - ${errorText}` `` which the same
`catch` turns into `onError`; otherwise the read loop runs. -/
def streamCompletion (extract : String → Option String) :
    FetchOutcome → List Event
  | .throw msg => [Event.error msg]
  | .resp ok status errorText chunks readError =>
      if ok then readLoop extract readError [] chunks
      else [Event.error ("API Error: " ++ toString status ++ " - " ++ errorText)]

/-- Whether a line is the terminal SSE sentinel `data: [DONE]`
(after the slice-and-trim that `streamCompletion` performs). -/
def doneLine (line : List Char) : Bool :=
  "data: ".data.isPrefixOf line && jsTrim (line.drop 6) == "[DONE]".data

/-- Whether the `[DONE]` sentinel ever appears among the complete lines
the read loop would process, given the initial buffer and the chunks. -/
def sawDone (buffer : List Char) : List String → Bool
  | [] => false
  | chunk :: rest =>
      let lines := jsSplitNewline (buffer ++ chunk.data)
      lines.dropLast.any doneLine || sawDone ((lines.getLast?).getD []) rest

/-! ## config.js — visualization constants -/

/-- Model of `CONFIG.visualization.topKOutputTokens`. -/
def topKOutputTokens : Nat := 5

/-- Model of `CONFIG.visualization.attentionMaxTokens`. -/
def attentionMaxTokens : Nat := 12

/-- Model of `CONFIG.visualization.embeddingDimensions`. -/
def embeddingDimensions : Nat := 8

/-! ## output.js — OutputVisualizer.generateDistribution

`Math.random()` is injected as the parameter `r` (the JS value lies in
`[0, 1)`); everything else is modelled exactly, over `ℚ`. -/

/-- One element of the probability list built by
`generateDistribution`: `{ token, probability, selected }`. -/
structure ProbEntry where
  token : String
  probability : ℚ
  selected : Bool
  deriving DecidableEq, Repr

/-- The fixed 50-entry mock vocabulary of `generateDistribution`. -/
def vocabulary : List String :=
  ["The", "a", "is", "in", "to", "and", "of", "that", "for", "it",
   "with", "as", "on", "be", "at", "by", "this", "have", "from", "or",
   "one", "all", "would", "there", "their", "what", "so", "up", "out", "if",
   "about", "who", "get", "which", "when", "make", "can", "like", "time", "just",
   "life", "meaning", "purpose", "human", "question", "answer", "exist", "world",
   "think", "believe"]

/-- output.js `OutputVisualizer.generateDistribution(selectedToken)`.
JS truthiness of `selectedToken` (a string) is `selectedToken ≠ ""`.
The selected token is force-written into `vocabulary[0]` when absent;
the selected entry receives probability `0.3 + r * 0.3`
(`r` standing for `Math.random()`); the next `topK - 1` candidate
tokens receive `remaining * 0.5^(i+1)`; the list is then sorted by
probability, descending (`Array.prototype.sort` is stable, modelled by
`List.mergeSort`). -/
def generateDistribution (r : ℚ) (selectedToken : String) : List ProbEntry :=
  let vocab :=
    if selectedToken ≠ "" ∧ selectedToken ∉ vocabulary then
      vocabulary.set 0 selectedToken
    else vocabulary
  let selectedProb : ℚ := 3/10 + r * (3/10)
  let probs : List ProbEntry :=
    if selectedToken ≠ "" then [⟨selectedToken, selectedProb, true⟩] else []
  let remaining : ℚ := if selectedToken ≠ "" then 1 - selectedProb else 1
  let otherTokens := vocab.filter (fun t => t ≠ selectedToken)
  let others : List ProbEntry :=
    ((otherTokens.take (topKOutputTokens - 1)).enum).map
      (fun p => ⟨p.2, remaining * (1/2 : ℚ) ^ (p.1 + 1), false⟩)
  (probs ++ others).mergeSort (fun a b => decide (b.probability ≤ a.probability))

/-! ## AttentionVisualizer.generateAttentionWeights

The source computes, for each unmasked cell `(i, j)` with `j ≤ i`,
`Math.min(1, Math.exp(-(i - j) * 0.3) + 0.3 * Math.random())`.
The transcendental-plus-random summand
`Math.exp(-(i-j)*0.3) + 0.3*Math.random()` is injected as the oracle
`w i j`; it is strictly positive for every `i, j` because `Math.exp`
is strictly positive and `Math.random()` is non-negative, which is the
hypothesis the theorems take.  The `Math.min` with 1, the causal mask,
and the row normalisation are modelled exactly, over `ℚ`. -/

/-- One row of the pre-normalisation attention matrix:
`min(1, w i j)` for `j ≤ i`, `0` (causal mask) for `j > i`. -/
def attnRawRow (w : Nat → Nat → ℚ) (n i : Nat) : List ℚ :=
  (List.range n).map (fun j => if j ≤ i then min 1 (w i j) else 0)

/-- Model of `AttentionVisualizer.generateAttentionWeights(tokens)`:
`n = Math.min(tokens.length, attentionMaxTokens)` rows, each built
unmasked-or-zero and then divided by its own sum
(`row.map(w => w / sum)`). -/
def generateAttentionWeights (w : Nat → Nat → ℚ) (tokens : List String) :
    List (List ℚ) :=
  let n := min tokens.length attentionMaxTokens
  (List.range n).map (fun i =>
    let row := attnRawRow w n i
    let s := row.sum
    row.map (fun x => x / s))

/-! ## EmbeddingsVisualizer (hashToken, generateEmbeddings) -/

/-- Truncation to a signed 32-bit integer, as performed by the JS
bitwise operators (`<<`, `&`). -/
def toInt32 (x : ℤ) : ℤ := (x + 2 ^ 31) % 2 ^ 32 - 2 ^ 31

/-- The UTF-16 code units of a character, as read by JS
`String.prototype.charCodeAt` (characters beyond the BMP appear as a
surrogate pair). -/
def charCodeUnits (c : Char) : List Nat :=
  if c.toNat < 65536 then [c.toNat]
  else [55296 + (c.toNat - 65536) / 1024, 56320 + (c.toNat - 65536) % 1024]

/-- The UTF-16 code-unit sequence of a string (what the
`charCodeAt(i)` loop of `hashToken` traverses). -/
def codeUnits (s : String) : List Nat :=
  (s.data.map charCodeUnits).flatten

/-- One iteration of the `hashToken` loop:
`hash = ((hash << 5) - hash) + char; hash = hash & hash`.  `<<`
truncates to 32 bits; the subtraction and addition are exact in
doubles at these magnitudes; `hash & hash` re-truncates to 32 bits. -/
def hashStep (hash : ℤ) (c : Nat) : ℤ :=
  toInt32 (toInt32 (hash * 32) - hash + (c : ℤ))

/-- embeddings `hashToken(token)`: the loop above over the token's
code units, then `Math.abs`. -/
def hashToken (token : String) : Nat :=
  ((codeUnits token).foldl hashStep 0).natAbs

/-- The per-dimension value of `generateEmbeddings`:
`0.1 + 0.9 * ((seed * (i + 1) * 9301 + 49297) % 233280) / 233280`
(all quantities non-negative, so JS `%` agrees with `Nat` mod). -/
def embedValue (seed i : Nat) : ℚ :=
  1/10 + (9/10) * (((seed * (i + 1) * 9301 + 49297) % 233280 : Nat) : ℚ) / 233280

/-- The `values` array built for one token:
dimensions `i = 0 .. embeddingDimensions - 1`, seeded by
`hashToken token`. -/
def embedValues (token : String) : List ℚ :=
  (List.range embeddingDimensions).map (embedValue (hashToken token))

/-- One element of `this.embeddings`:
`{ token, index, values }`. -/
structure Embedding where
  token : String
  index : Nat
  values : List ℚ
  deriving DecidableEq, Repr

/-- embeddings `generateEmbeddings(tokens)`:
`tokens.map((token, index) => { token, index, values })`. -/
def generateEmbeddings (tokens : List String) : List Embedding :=
  tokens.enum.map (fun p => ⟨p.2, p.1, embedValues p.2⟩)

/-! ## app.js — the App orchestrator

The orchestration-relevant state of `App` (busy flag, submit button,
response surface, cursor, per-layer status record) is made explicit in
`AppState`.  The purely presentational work of the stage animators
(DOM nodes, canvas drawing, the fire-and-forget `NetworkDiagram`
animation, `OutputVisualizer.animate`/`quickUpdate` calls, and the
inter-stage `delay(getTiming('layerTransition'))` waits) affects no
field of this state and is elided.  A stage's `await`-ed animation
either resolves or throws; which happens, and with what message, is
injected through `StageResult` (the synthetic stages never throw by
construction, but the claims quantify over the possibility). -/

/-- The five pipeline layers whose status records `App` maintains. -/
inductive Layer where
  | tokenization
  | embeddings
  | attention
  | ffn
  | output
  deriving DecidableEq, Repr

/-- One per-layer status record: the CSS status class
(`waiting` / `active` / `completed`) and the free-text label. -/
structure LayerState where
  status : String
  text : String
  deriving DecidableEq, Repr

/-- The orchestration state of `App`. -/
structure AppState where
  isProcessing : Bool
  submitDisabled : Bool
  responseOutput : String
  responseCursor : Bool
  layers : Layer → LayerState

/-- State of `App` before any run: idle, enabled, empty response, all layers
waiting. -/
def initialAppState : AppState :=
  ⟨false, false, "", false, fun _ => ⟨"waiting", "Waiting"⟩⟩

/-- JS `status.charAt(0).toUpperCase() + status.slice(1)`. -/
def capitalizeFirst (s : String) : String :=
  match s.data with
  | [] => ""
  | c :: cs => String.mk (c.toUpper :: cs)

/-- app.js `updateLayerStatus(layer, status, text)`: the container's
`active`/`completed` classes are replaced by `status` (none for
`waiting`), and the status text becomes `text || capitalize(status)`. -/
def updateLayerStatus (s : AppState) (layer : Layer) (status text : String) :
    AppState :=
  { s with
    layers := fun l =>
      if l = layer then
        ⟨status, if text = "" then capitalizeFirst status else text⟩
      else s.layers l }

/-- app.js `reset()`: every layer back to `waiting`/`Waiting`, the
visualizers cleared (no `AppState` field), the response surface and
cursor cleared, the submit button re-enabled and the busy flag
dropped. -/
def resetState (s : AppState) : AppState :=
  { s with
    layers := fun _ => ⟨"waiting", "Waiting"⟩,
    responseOutput := "",
    responseCursor := false,
    submitDisabled := false,
    isProcessing := false }

/-- Whether an `await`-ed stage animation resolved or threw. -/
inductive StageResult where
  | ok
  | throw (msg : String)
  deriving DecidableEq, Repr

/-- The injected outcomes of the four synthetic stages of one run
(the output stage's outcome is the streaming client's, via
`FetchOutcome`). -/
structure RunScenario where
  tok : StageResult
  emb : StageResult
  attn : StageResult
  ffn : StageResult
  fetch : FetchOutcome

/-- app.js `runTokenization(prompt)`: mark active, tokenize and
animate (outcome injected), then mark completed with the token
count. -/
def runTokenization (prompt : String) (res : StageResult) (s : AppState) :
    AppState × Option String :=
  let s := updateLayerStatus s .tokenization "active" "Processing"
  match res with
  | .throw m => (s, some m)
  | .ok =>
      (updateLayerStatus s .tokenization "completed"
        (toString (tokenize prompt).length ++ " tokens"), none)

/-- app.js `runEmbeddings()`. -/
def runEmbeddings (res : StageResult) (s : AppState) : AppState × Option String :=
  let s := updateLayerStatus s .embeddings "active" "Encoding"
  match res with
  | .throw m => (s, some m)
  | .ok => (updateLayerStatus s .embeddings "completed" "Encoded", none)

/-- app.js `runAttention()`. -/
def runAttention (res : StageResult) (s : AppState) : AppState × Option String :=
  let s := updateLayerStatus s .attention "active" "Computing"
  match res with
  | .throw m => (s, some m)
  | .ok => (updateLayerStatus s .attention "completed" "Computed", none)

/-- app.js `runFFN()`. -/
def runFFN (res : StageResult) (s : AppState) : AppState × Option String :=
  let s := updateLayerStatus s .ffn "active" "Processing"
  match res with
  | .throw m => (s, some m)
  | .ok => (updateLayerStatus s .ffn "completed" "Processed", none)

/-- The callback half of app.js `runOutputGeneration`: consume the
streaming client's callback trace.  Each `onToken` appends to the
response and refreshes the `output` status; `onComplete` resolves the
promise (`none` error); `onError` reverts `output` to
`waiting`/`Error` and rejects with the error.  A trace that ends
without a terminal callback leaves the promise pending forever
(`Option.none` result). -/
def runOutputEvents (s : AppState) (count : Nat) :
    List Event → Option (AppState × Option String)
  | [] => none
  | .token t :: rest =>
      let s := { s with responseOutput := s.responseOutput ++ t }
      let s := updateLayerStatus s .output "active"
        (toString (count + 1) ++ " tokens")
      runOutputEvents s (count + 1) rest
  | .complete :: _ =>
      let s := updateLayerStatus s .output "completed"
        (toString count ++ " tokens")
      some ({ s with responseCursor := false }, none)
  | .error m :: _ =>
      some (updateLayerStatus s .output "waiting" "Error", some m)

/-- app.js `runOutputGeneration(prompt)`: mark `output` active, show
the cursor, call `ZenMuxAPI.streamCompletion` and bridge its
callbacks. -/
def runOutputGeneration (extract : String → Option String)
    (fetch : FetchOutcome) (s : AppState) : Option (AppState × Option String) :=
  let s := updateLayerStatus s .output "active" "Generating"
  let s := { s with responseCursor := true }
  runOutputEvents s 0 (streamCompletion extract fetch)

/-- The `try` block of `process()`: the five stages in order, each
gated on the previous one's success.  The result is the state reached
plus `some err` when the first failing stage threw `err`, wrapped in
the outer `Option`: outer `none` means the output stage's promise
never settles (so `catch`/`finally` never run). -/
def processStages (prompt : String) (sc : RunScenario)
    (extract : String → Option String) (s : AppState) :
    Option (AppState × Option String) :=
  match runTokenization prompt sc.tok s with
  | (s, some m) => some (s, some m)
  | (s, none) =>
    match runEmbeddings sc.emb s with
    | (s, some m) => some (s, some m)
    | (s, none) =>
      match runAttention sc.attn s with
      | (s, some m) => some (s, some m)
      | (s, none) =>
        match runFFN sc.ffn s with
        | (s, some m) => some (s, some m)
        | (s, none) => runOutputGeneration extract sc.fetch s

/-- app.js `process()`: re-entrant submits and empty (trimmed) prompts
are silent no-ops; otherwise mark busy, reset, run the stages; a
thrown error is caught and written to the response surface as
`` `Error: ${error.message}` ``; the `finally` block unconditionally
drops the busy flag, re-enables submission and hides the cursor.  If
the output stage's promise never settles, neither `catch` nor
`finally` runs and the state of that moment persists. -/
def process (inputValue : String) (sc : RunScenario)
    (extract : String → Option String) (s0 : AppState) : AppState :=
  if s0.isProcessing then s0
  else
    let prompt := String.mk (jsTrim inputValue.data)
    if prompt = "" then s0
    else
      let s := { s0 with isProcessing := true, submitDisabled := true }
      let s := resetState s
      let s := { s with submitDisabled := true, isProcessing := true }
      match processStages prompt sc extract s with
      | none => s
      | some (s, err) =>
          let s :=
            match err with
            | some m => { s with responseOutput := "Error: " ++ m }
            | none => s
          { s with
            isProcessing := false,
            submitDisabled := false,
            responseCursor := false }

/-- The message of the first stage failure `process()` would catch,
mirroring the sequencing of `processStages`: the first throwing
synthetic stage, else the streaming client's first terminal `onError`
(if its first terminal callback is `onComplete`, the run succeeds). -/
def firstFailure (sc : RunScenario) (extract : String → Option String) :
    Option String :=
  match sc.tok with
  | .throw m => some m
  | .ok =>
    match sc.emb with
    | .throw m => some m
    | .ok =>
      match sc.attn with
      | .throw m => some m
      | .ok =>
        match sc.ffn with
        | .throw m => some m
        | .ok => firstTerminalError (streamCompletion extract sc.fetch)
where
  /-- The first terminal callback of a trace, when it is an error. -/
  firstTerminalError : List Event → Option String
    | [] => none
    | .token _ :: rest => firstTerminalError rest
    | .complete :: _ => none
    | .error m :: _ => some m

/-! # Theorems -/

/-- C3 (counterexample): `setSpeed 0` is not a no-op — starting from
the default configuration (multiplier 1) it overwrites the shared
multiplier with 0, violating the positivity invariant. -/
theorem setSpeed_zero_not_noop :
    setSpeed 0 initialConfig ≠ initialConfig ∧
    (setSpeed 0 initialConfig).speedMultiplier = 0 := by
  decide

/-- C3 (amended): `setSpeed m` overwrites the shared multiplier with
`m` unconditionally — also for non-positive `m` — so the multiplier
stays strictly positive only when every call passes a positive value
(as the UI's fixed choices 0.5 / 1 / 2 do). -/
theorem setSpeed_assigns (m : ℚ) (s : ConfigState) :
    (setSpeed m s).speedMultiplier = m ∧
    (0 < m → 0 < (setSpeed m s).speedMultiplier) := by
  exact ⟨rfl, fun h => h⟩

/-- C3 witness: the amended statement evaluated at `setSpeed 2` on the
default configuration, with the positivity premise discharged at 2. -/
theorem setSpeed_assigns_witness :
    (setSpeed 2 initialConfig).speedMultiplier = 2 ∧
    (0 : ℚ) < 2 ∧
    0 < (setSpeed 2 initialConfig).speedMultiplier :=
  ⟨(setSpeed_assigns 2 initialConfig).1, by norm_num,
    (setSpeed_assigns 2 initialConfig).2 (by norm_num)⟩

/-- C9 (counterexample): from a multiplier of 1/2 (the UI's 0.5×
speed), `setSpeed(2)` then `setSpeed(1)` does not restore
`getTiming "tokenDelay"`: the effective duration was 200 ms before the
two calls and is 100 ms after them. -/
theorem speed_roundtrip_fails_from_half :
    getTiming (setSpeed (1/2) initialConfig) "tokenDelay" = JSNum.num 200 ∧
    getTiming (setSpeed 1 (setSpeed 2 (setSpeed (1/2) initialConfig)))
        "tokenDelay" = JSNum.num 100 ∧
    getTiming (setSpeed 1 (setSpeed 2 (setSpeed (1/2) initialConfig)))
        "tokenDelay" ≠
      getTiming (setSpeed (1/2) initialConfig) "tokenDelay" := by
  refine ⟨?_, ?_, ?_⟩ <;>
    norm_num [getTiming, setSpeed, initialConfig, timingLookup, JSNum.div]

/-- C9 (amended): whenever the multiplier before the two calls is 1
(in particular from the default configuration), `setSpeed(2)` followed
by `setSpeed(1)` restores `getTiming` to its prior value for every
stage key; in general `setSpeed(1)` forces the multiplier to 1
regardless of its prior value, so the round trip is a restoration only
from a prior multiplier of 1. -/
theorem speed_roundtrip_from_default (s : ConfigState) (key : String)
    (h : s.speedMultiplier = 1) :
    getTiming (setSpeed 1 (setSpeed 2 s)) key = getTiming s key := by
  cases s with
  | mk m => subst h; rfl

/-- C9 witness: the round trip at the default configuration and the
key `"attentionDraw"`. -/
theorem speed_roundtrip_from_default_witness :
    initialConfig.speedMultiplier = 1 ∧
    getTiming (setSpeed 1 (setSpeed 2 initialConfig)) "attentionDraw" =
      getTiming initialConfig "attentionDraw" :=
  ⟨by decide, speed_roundtrip_from_default initialConfig "attentionDraw" (by decide)⟩

/-- C5: for every input string, `tokenize` yields at least two tokens,
beginning with the `<BOS>` sentinel and ending with the `<EOS>`
sentinel. -/
theorem tokenize_sentinels (text : String) :
    2 ≤ (tokenize text).length ∧
    (tokenize text).head? = some "<BOS>" ∧
    (tokenize text).getLast? = some "<EOS>" := by
  refine ⟨?_, rfl, ?_⟩
  · simp [tokenize]
  · show (["<BOS>"] ++ (rawTokens text ++ ["<EOS>"])).getLast? = some "<EOS>"
    rw [List.getLast?_append, List.getLast?_append]
    simp

/-- Scenario A of the specification, checked against the embedding:
`"Hello, world!"` tokenizes to the six expected tokens. -/
theorem tokenize_scenario_a :
    tokenize "Hello, world!" =
      ["<BOS>", "Hello", ",", "world", "!", "<EOS>"] := by
  decide

/-- Every event fired by the inner line loop is a token event
(`onComplete`/`onError` are never called from inside it). -/
lemma handleLines_fst_tokens (extract : String → Option String) :
    ∀ lines : List (List Char), ∀ e ∈ (handleLines extract lines).1,
      ∃ s, e = Event.token s := by
  intro lines
  induction lines with
  | nil => intro e he; simp [handleLines] at he
  | cons line rest ih =>
      intro e he
      by_cases hpre : "data: ".data.isPrefixOf line
      · by_cases hdone : jsTrim (line.drop 6) = "[DONE]".data
        · simp [handleLines, hpre, hdone] at he
        · rcases hex : extract (String.mk (jsTrim (line.drop 6))) with _ | tok
          · simp [handleLines, hpre, hdone, hex] at he
            exact ih e he
          · simp [handleLines, hpre, hdone, hex] at he
            rcases he with h | h
            · exact ⟨tok, h⟩
            · exact ih e h
      · simp [handleLines, hpre] at he
        exact ih e he

/-- The read loop always produces a trace of token events closed by a
single terminal event: `onComplete` from the `[DONE]` sentinel or from
the reader reporting `done`, or `onError` from a mid-stream rejection
of `reader.read()`. -/
lemma readLoop_shape (extract : String → Option String)
    (readError : Option String) :
    ∀ (chunks : List String) (buffer : List Char),
      ∃ ts last, readLoop extract readError buffer chunks = ts ++ [last] ∧
        (∀ e ∈ ts, ∃ s, e = Event.token s) ∧
        (last = Event.complete ∨ ∃ m, last = Event.error m) := by
  intro chunks
  induction chunks with
  | nil =>
      intro _
      cases readError with
      | none => exact ⟨[], Event.complete, rfl, by simp, Or.inl rfl⟩
      | some m => exact ⟨[], Event.error m, rfl, by simp, Or.inr ⟨m, rfl⟩⟩
  | cons chunk rest ih =>
      intro buffer
      set lines := jsSplitNewline (buffer ++ chunk.data) with hl
      rcases hr : handleLines extract lines.dropLast with ⟨evs, fin⟩
      have hevs : ∀ e ∈ evs, ∃ s, e = Event.token s := by
        intro e he
        exact handleLines_fst_tokens extract lines.dropLast e (by rw [hr]; exact he)
      cases fin with
      | true =>
          refine ⟨evs, Event.complete, ?_, hevs, Or.inl rfl⟩
          simp [readLoop, ← hl, hr]
      | false =>
          obtain ⟨ts, last, hts, htok, hlast⟩ := ih ((lines.getLast?).getD [])
          refine ⟨evs ++ ts, last, ?_, ?_, hlast⟩
          · simp [readLoop, ← hl, hr, hts]
          · intro e he
            rcases List.mem_append.mp he with h | h
            · exact hevs e h
            · exact htok e h

/-- C1: every invocation of `streamCompletion` fires exactly one
terminal callback (`onComplete` or `onError`, never both, never
neither), and every `onToken` invocation occurs strictly before the
terminal callback: the callback trace is a list of token events
followed by exactly one terminal event. -/
theorem streamCompletion_one_terminal (extract : String → Option String)
    (fetch : FetchOutcome) :
    ∃ ts last, streamCompletion extract fetch = ts ++ [last] ∧
      (∀ e ∈ ts, ∃ s, e = Event.token s) ∧
      (last = Event.complete ∨ ∃ m, last = Event.error m) := by
  cases fetch with
  | throw msg =>
      exact ⟨[], Event.error msg, rfl, by simp, Or.inr ⟨msg, rfl⟩⟩
  | resp ok status errorText chunks readError =>
      cases ok with
      | true =>
          obtain ⟨ts, last, hts, htok, hlast⟩ :=
            readLoop_shape extract readError chunks []
          exact ⟨ts, last, by simpa [streamCompletion] using hts, htok, hlast⟩
      | false =>
          exact ⟨[], Event.error ("API Error: " ++ toString status ++ " - " ++ errorText),
            rfl, by simp, Or.inr ⟨_, rfl⟩⟩

/-- If the line loop reports the `[DONE]` sentinel, some processed
line was a `data: [DONE]` line. -/
lemma handleLines_done_any (extract : String → Option String) :
    ∀ lines : List (List Char), (handleLines extract lines).2 = true →
      lines.any doneLine = true := by
  intro lines
  induction lines with
  | nil => intro h; simp [handleLines] at h
  | cons line rest ih =>
      intro h
      by_cases hpre : "data: ".data.isPrefixOf line
      · by_cases hdone : jsTrim (line.drop 6) = "[DONE]".data
        · simp [List.any_cons, doneLine, hpre, hdone]
        · rcases hex : extract (String.mk (jsTrim (line.drop 6))) with _ | tok
          · simp [handleLines, hpre, hdone, hex] at h
            simp [List.any_cons, ih h]
          · simp [handleLines, hpre, hdone, hex] at h
            simp [List.any_cons, ih h]
      · simp [handleLines, hpre] at h
        simp [List.any_cons, ih h]

/-- Without the sentinel and with the reader ending in a clean `done`
(no mid-stream transport error), the read loop still closes the trace
with exactly one `onComplete`, fired after all token events. -/
lemma readLoop_no_done_complete (extract : String → Option String) :
    ∀ (chunks : List String) (buffer : List Char),
      sawDone buffer chunks = false →
      ∃ ts, readLoop extract none buffer chunks = ts ++ [Event.complete] ∧
        ∀ e ∈ ts, ∃ s, e = Event.token s := by
  intro chunks
  induction chunks with
  | nil => exact fun _ _ => ⟨[], rfl, by simp⟩
  | cons chunk rest ih =>
      intro buffer hsaw
      set lines := jsSplitNewline (buffer ++ chunk.data) with hl
      have hparts : lines.dropLast.any doneLine = false ∧
          sawDone ((lines.getLast?).getD []) rest = false := by
        have := hsaw
        simp only [sawDone, ← hl, Bool.or_eq_false_iff] at this
        exact this
      rcases hr : handleLines extract lines.dropLast with ⟨evs, fin⟩
      have hevs : ∀ e ∈ evs, ∃ s, e = Event.token s := by
        intro e he
        exact handleLines_fst_tokens extract lines.dropLast e (by rw [hr]; exact he)
      cases fin with
      | true =>
          exfalso
          have := handleLines_done_any extract lines.dropLast (by rw [hr])
          rw [hparts.1] at this
          exact Bool.false_ne_true this
      | false =>
          obtain ⟨ts, hts, htok⟩ := ih ((lines.getLast?).getD []) hparts.2
          refine ⟨evs ++ ts, ?_, ?_⟩
          · simp [readLoop, ← hl, hr, hts]
          · intro e he
            rcases List.mem_append.mp he with h | h
            · exact hevs e h
            · exact htok e h

/-- C10: when the response is ok and the body ends (the reader reports
`done`) without a `data: [DONE]` sentinel line ever arriving,
`streamCompletion` still fires `onComplete` exactly once, after all
token callbacks — the completion signal does not stay pending. -/
theorem streamCompletion_completes_without_done
    (extract : String → Option String) (status : Nat)
    (errorText : String) (chunks : List String)
    (hnodone : sawDone [] chunks = false) :
    ∃ ts, streamCompletion extract (.resp true status errorText chunks none) =
        ts ++ [Event.complete] ∧
      ∀ e ∈ ts, ∃ s, e = Event.token s := by
  obtain ⟨ts, hts, htok⟩ := readLoop_no_done_complete extract chunks [] hnodone
  exact ⟨ts, by simpa [streamCompletion] using hts, htok⟩

/-- C10 witness: a stream whose body ends immediately (no chunks, so
certainly no `[DONE]` sentinel) fires exactly one `onComplete`. -/
theorem streamCompletion_completes_without_done_witness :
    sawDone [] ([] : List String) = false ∧
    ∃ ts, streamCompletion (fun _ => none) (.resp true 200 "" [] none) =
        ts ++ [Event.complete] ∧
      ∀ e ∈ ts, ∃ s, e = Event.token s :=
  ⟨by decide,
    streamCompletion_completes_without_done (fun _ => none) 200 "" [] (by decide)⟩

/-- Scenario C of the specification, checked against the embedding:
the body `data: {...Hi...}\n\ndata: [DONE]\n\n` fires `onToken "Hi"`
once and then `onComplete` once, with the JSON-extraction oracle
reading `"Hi"` out of the one data line. -/
theorem streamCompletion_scenario_c :
    streamCompletion
      (fun s => if s = "\x7b\"choices\":[\x7b\"delta\":\x7b\"content\":\"Hi\"\x7d\x7d]\x7d"
        then some "Hi" else none)
      (.resp true 200 ""
        ["data: \x7b\"choices\":[\x7b\"delta\":\x7b\"content\":\"Hi\"\x7d\x7d]\x7d\n\ndata: [DONE]\n\n"]
        none) =
      [Event.token "Hi", Event.complete] := by
  decide

/-- A mid-stream transport failure, checked against the embedding: one
data line is delivered and then `reader.read()` rejects, so `onToken`
fires for the delivered line and the `catch` fires `onError`
afterwards — the trace is a token event strictly before the single
terminal error event. -/
theorem streamCompletion_midstream_error_example :
    streamCompletion
      (fun s => if s = "\x7b\"choices\":[\x7b\"delta\":\x7b\"content\":\"Hi\"\x7d\x7d]\x7d"
        then some "Hi" else none)
      (.resp true 200 ""
        ["data: \x7b\"choices\":[\x7b\"delta\":\x7b\"content\":\"Hi\"\x7d\x7d]\x7d\n"]
        (some "connection reset")) =
      [Event.token "Hi", Event.error "connection reset"] := by
  decide

/-- Dividing every element of a list divides its sum. -/
lemma sum_map_div (l : List ℚ) (c : ℚ) :
    (l.map (fun x => x / c)).sum = l.sum / c := by
  induction l with
  | nil => simp
  | cons x xs ih => simp [ih, add_div]

/-- Every entry of a pre-normalisation attention row is non-negative
when the oracle is positive. -/
lemma attnRawRow_nonneg (w : Nat → Nat → ℚ) (hw : ∀ i j, 0 < w i j)
    (n i : Nat) : ∀ x ∈ attnRawRow w n i, (0 : ℚ) ≤ x := by
  intro x hx
  simp only [attnRawRow, List.mem_map] at hx
  obtain ⟨j, _, hj⟩ := hx
  by_cases h : j ≤ i
  · rw [← hj, if_pos h]
    exact le_min (by norm_num) (le_of_lt (hw i j))
  · rw [← hj, if_neg h]

/-- A pre-normalisation attention row with `i < n` has a strictly
positive sum: its diagonal entry `min 1 (w i i)` is positive and all
entries are non-negative. -/
lemma attnRawRow_sum_pos (w : Nat → Nat → ℚ) (hw : ∀ i j, 0 < w i j)
    (n i : Nat) (hi : i < n) : 0 < (attnRawRow w n i).sum := by
  have hmem : min 1 (w i i) ∈ attnRawRow w n i := by
    simp only [attnRawRow, List.mem_map]
    exact ⟨i, by simp [List.mem_range, hi]⟩
  have h1 : (0 : ℚ) < min 1 (w i i) := lt_min one_pos (hw i i)
  exact lt_of_lt_of_le h1
    (List.single_le_sum (attnRawRow_nonneg w hw n i) _ hmem)

/-- C6: for every token list, `generateAttentionWeights` produces an
`n × n` matrix with `n = min (token count) attentionMaxTokens`, whose
entry `(i, j)` is `0` whenever `j > i` (causal mask), and each of
whose rows sums to exactly `1` — given that each unmasked raw weight
`Math.exp(-(i-j)*0.3) + 0.3*Math.random()` (the oracle `w`) is
strictly positive, which holds since `exp` is positive and `random`
non-negative. -/
theorem attention_matrix_spec (w : Nat → Nat → ℚ) (tokens : List String)
    (hw : ∀ i j, 0 < w i j) :
    (generateAttentionWeights w tokens).length =
        min tokens.length attentionMaxTokens ∧
    (∀ row ∈ generateAttentionWeights w tokens,
        row.length = min tokens.length attentionMaxTokens) ∧
    (∀ (i j : Nat) (hi : i < (generateAttentionWeights w tokens).length)
        (hj : j < ((generateAttentionWeights w tokens)[i]).length),
        i < j → (generateAttentionWeights w tokens)[i][j] = 0) ∧
    (∀ (i : Nat) (hi : i < (generateAttentionWeights w tokens).length),
        ((generateAttentionWeights w tokens)[i]).sum = 1) := by
  set n := min tokens.length attentionMaxTokens with hn
  have hlen : (generateAttentionWeights w tokens).length = n := by
    simp [generateAttentionWeights, ← hn]
  have hget : ∀ (i : Nat) (hi : i < (generateAttentionWeights w tokens).length),
      (generateAttentionWeights w tokens)[i] =
        (attnRawRow w n i).map (fun x => x / (attnRawRow w n i).sum) := by
    intro i hi
    have hi' : i < n := hlen ▸ hi
    simp [generateAttentionWeights, ← hn, hi']
  refine ⟨hlen, ?_, ?_, ?_⟩
  · intro row hrow
    simp only [generateAttentionWeights, ← hn, List.mem_map] at hrow
    obtain ⟨i, _, hrow⟩ := hrow
    simp [← hrow, attnRawRow]
  · intro i j hi hj hij
    have hj' : j < n := by
      have hlenj := hj
      rw [hget i hi] at hlenj
      simpa [attnRawRow] using hlenj
    rw [List.getElem_of_eq (hget i hi)]
    simp [attnRawRow, hj', Nat.not_le.mpr hij]
  · intro i hi
    have hi' : i < n := hlen ▸ hi
    rw [hget i hi, sum_map_div]
    exact div_self (ne_of_gt (attnRawRow_sum_pos w hw n i hi'))

/-- C6 witness: the constant oracle `1` (positive) on a three-token
list. -/
theorem attention_matrix_spec_witness :
    (∀ i j : Nat, (0 : ℚ) < (fun _ _ => (1 : ℚ)) i j) ∧
    ((generateAttentionWeights (fun _ _ => (1 : ℚ)) ["a", "b", "c"]).length =
        min (["a", "b", "c"] : List String).length attentionMaxTokens ∧
      (∀ row ∈ generateAttentionWeights (fun _ _ => (1 : ℚ)) ["a", "b", "c"],
        row.length = min (["a", "b", "c"] : List String).length attentionMaxTokens) ∧
      (∀ (i j : Nat)
          (hi : i < (generateAttentionWeights (fun _ _ => (1 : ℚ)) ["a", "b", "c"]).length)
          (hj : j <
            ((generateAttentionWeights (fun _ _ => (1 : ℚ)) ["a", "b", "c"])[i]).length),
          i < j →
          (generateAttentionWeights (fun _ _ => (1 : ℚ)) ["a", "b", "c"])[i][j] = 0) ∧
      (∀ (i : Nat)
          (hi : i < (generateAttentionWeights (fun _ _ => (1 : ℚ)) ["a", "b", "c"]).length),
          ((generateAttentionWeights (fun _ _ => (1 : ℚ)) ["a", "b", "c"])[i]).sum = 1)) :=
  ⟨fun _ _ => one_pos,
    attention_matrix_spec (fun _ _ => (1 : ℚ)) ["a", "b", "c"] (fun _ _ => one_pos)⟩

/-- For a non-empty selected token, the list built by
`generateDistribution` before sorting is the selected entry followed
by the non-selected candidate entries. -/
lemma generateDistribution_eq (r : ℚ) (sel : String) (hsel : sel ≠ "") :
    generateDistribution r sel =
      (⟨sel, 3/10 + r * (3/10), true⟩ ::
        ((((if sel ∉ vocabulary then vocabulary.set 0 sel
            else vocabulary).filter (fun t => t ≠ sel)).take
              (topKOutputTokens - 1)).enum.map
          (fun p =>
            ⟨p.2, (1 - (3/10 + r * (3/10))) * (1/2 : ℚ) ^ (p.1 + 1),
              false⟩))).mergeSort
        (fun a b => decide (b.probability ≤ a.probability)) := by
  simp [generateDistribution, hsel]

/-- Every non-head entry of the pre-sort list has `selected = false`
and a token different from the selected one. -/
lemma generateDistribution_others (r : ℚ) (sel : String) :
    ∀ e ∈ (((if sel ∉ vocabulary then vocabulary.set 0 sel
        else vocabulary).filter (fun t => t ≠ sel)).take
          (topKOutputTokens - 1)).enum.map
        (fun p =>
          (⟨p.2, (1 - (3/10 + r * (3/10))) * (1/2 : ℚ) ^ (p.1 + 1),
            false⟩ : ProbEntry)),
      e.selected = false ∧ e.token ≠ sel := by
  intro e he
  simp only [List.mem_map] at he
  obtain ⟨p, hp, he⟩ := he
  have hmem : p.2 ∈ ((if sel ∉ vocabulary then vocabulary.set 0 sel
      else vocabulary).filter (fun t => t ≠ sel)).take (topKOutputTokens - 1) := by
    have := List.mem_enum_iff_getElem?.mp hp
    exact List.getElem?_mem this
  have hne : p.2 ≠ sel := by
    have := List.mem_filter.mp (List.mem_of_mem_take hmem)
    simpa using this.2
  exact ⟨by rw [← he], by rw [← he]; exact hne⟩

/-- C7: for every non-empty `selectedToken`, `generateDistribution`
returns a list in which exactly one entry is flagged selected, the
selected entry's token equals `selectedToken`, and `selectedToken`
appears exactly once among the entries (force-insertion into the
vocabulary plus filtering of the selected token guarantee this,
and the final probability sort merely permutes the list). -/
theorem distribution_selected_spec (r : ℚ) (sel : String) (hsel : sel ≠ "") :
    (generateDistribution r sel).countP (fun e => e.selected) = 1 ∧
    (generateDistribution r sel).countP (fun e => e.token == sel) = 1 ∧
    (∀ e ∈ generateDistribution r sel, e.selected = true → e.token = sel) := by
  rw [generateDistribution_eq r sel hsel]
  set others := (((if sel ∉ vocabulary then vocabulary.set 0 sel
      else vocabulary).filter (fun t => t ≠ sel)).take
        (topKOutputTokens - 1)).enum.map
      (fun p =>
        (⟨p.2, (1 - (3/10 + r * (3/10))) * (1/2 : ℚ) ^ (p.1 + 1),
          false⟩ : ProbEntry)) with hothers
  set L0 : List ProbEntry := ⟨sel, 3/10 + r * (3/10), true⟩ :: others with hL0
  have hperm : (L0.mergeSort
      (fun a b => decide (b.probability ≤ a.probability))).Perm L0 :=
    List.mergeSort_perm L0 _
  have hoth := generateDistribution_others r sel
  rw [← hothers] at hoth
  refine ⟨?_, ?_, ?_⟩
  · rw [hperm.countP_eq]
    rw [hL0, List.countP_cons]
    have : others.countP (fun e => e.selected) = 0 := by
      rw [List.countP_eq_zero]
      intro e he
      simp [(hoth e he).1]
    simp [this]
  · rw [hperm.countP_eq]
    rw [hL0, List.countP_cons]
    have : others.countP (fun e => e.token == sel) = 0 := by
      rw [List.countP_eq_zero]
      intro e he
      simpa using (hoth e he).2
    simp [this]
  · intro e he hesel
    rw [hperm.mem_iff, hL0, List.mem_cons] at he
    rcases he with h | h
    · rw [h]
    · exact absurd hesel (by simp [(hoth e h).1])

/-- C7 witness: the selected token `"hello"` (absent from the fixed
vocabulary) with the random draw `r = 0`. -/
theorem distribution_selected_spec_witness :
    ("hello" ≠ "") ∧
    ((generateDistribution 0 "hello").countP (fun e => e.selected) = 1 ∧
      (generateDistribution 0 "hello").countP (fun e => e.token == "hello") = 1 ∧
      (∀ e ∈ generateDistribution 0 "hello", e.selected = true →
        e.token = "hello")) :=
  ⟨by decide, distribution_selected_spec 0 "hello" (by decide)⟩

/-- Every entry of `generateEmbeddings` carries exactly the values
computed from its own token text. -/
lemma generateEmbeddings_values (tokens : List String) :
    ∀ e ∈ generateEmbeddings tokens, e.values = embedValues e.token := by
  intro e he
  simp only [generateEmbeddings, List.mem_map] at he
  obtain ⟨p, _, he⟩ := he
  rw [← he]

/-- C8: embedding generation is deterministic in the token text — for
any two entries produced by `generateEmbeddings` (in the same run or
in different runs, at any positions) whose token texts coincide, the
hash values and the embedding vectors coincide; no randomness enters
`hashToken` or the per-token value computation. -/
theorem embeddings_deterministic (ts us : List String) (e f : Embedding)
    (he : e ∈ generateEmbeddings ts) (hf : f ∈ generateEmbeddings us)
    (htok : e.token = f.token) :
    hashToken e.token = hashToken f.token ∧ e.values = f.values := by
  refine ⟨by rw [htok], ?_⟩
  rw [generateEmbeddings_values ts e he, generateEmbeddings_values us f hf, htok]

/-- C8 witness: the token `"Hi"` occurring at position 0 of one run
and position 1 of a different run receives the same hash and the same
vector. -/
theorem embeddings_deterministic_witness :
    (⟨"Hi", 0, embedValues "Hi"⟩ : Embedding) ∈ generateEmbeddings ["Hi", "a"] ∧
    (⟨"Hi", 1, embedValues "Hi"⟩ : Embedding) ∈ generateEmbeddings ["b", "Hi"] ∧
    (hashToken (⟨"Hi", 0, embedValues "Hi"⟩ : Embedding).token =
        hashToken (⟨"Hi", 1, embedValues "Hi"⟩ : Embedding).token ∧
      (⟨"Hi", 0, embedValues "Hi"⟩ : Embedding).values =
        (⟨"Hi", 1, embedValues "Hi"⟩ : Embedding).values) :=
  ⟨List.mem_cons_self _ _,
    List.mem_cons_of_mem _ (List.mem_cons_self _ _),
    embeddings_deterministic ["Hi", "a"] ["b", "Hi"] _ _
      (List.mem_cons_self _ _)
      (List.mem_cons_of_mem _ (List.mem_cons_self _ _)) rfl⟩

/-- Updating a layer status via `updateLayerStatus` never touches the busy flag, the submit
button, the response surface or the cursor. -/
lemma updateLayerStatus_flags (s : AppState) (l : Layer) (st tx : String) :
    (updateLayerStatus s l st tx).isProcessing = s.isProcessing ∧
    (updateLayerStatus s l st tx).submitDisabled = s.submitDisabled ∧
    (updateLayerStatus s l st tx).responseOutput = s.responseOutput ∧
    (updateLayerStatus s l st tx).responseCursor = s.responseCursor :=
  ⟨rfl, rfl, rfl, rfl⟩

/-- Applying `updateLayerStatus` on one layer leaves every other layer's status
record unchanged. -/
lemma updateLayerStatus_other (s : AppState) (l : Layer) (st tx : String)
    (l' : Layer) (h : l' ≠ l) :
    (updateLayerStatus s l st tx).layers l' = s.layers l' := by
  simp [updateLayerStatus, h]

/-- When the streaming trace's first terminal callback is `onError m`,
bridging the callbacks rejects the output-stage promise with `m`,
reverts the `output` status record to `waiting`/`Error`, and leaves
the busy flag and submit button as they were. -/
lemma runOutputEvents_error (m : String) :
    ∀ (evs : List Event) (s : AppState) (count : Nat),
      firstFailure.firstTerminalError evs = some m →
      ∃ s', runOutputEvents s count evs = some (s', some m) ∧
        s'.layers .output = ⟨"waiting", "Error"⟩ := by
  intro evs
  induction evs with
  | nil => intro s count h; simp [firstFailure.firstTerminalError] at h
  | cons e rest ih =>
      intro s count h
      cases e with
      | token t =>
          rw [firstFailure.firstTerminalError] at h
          obtain ⟨s', hs', hout⟩ := ih _ (count + 1) h
          exact ⟨s', hs', hout⟩
      | complete => simp [firstFailure.firstTerminalError] at h
      | error m' =>
          rw [firstFailure.firstTerminalError] at h
          obtain rfl : m' = m := by simpa using h
          refine ⟨updateLayerStatus s .output "waiting" "Error", rfl, ?_⟩
          simp [updateLayerStatus]

/-- When some stage of the pipeline fails (in the `firstFailure`
order), the `try` block of `process()` stops at that stage with its
error, and the `output` status record ends `waiting` (labelled `Error`
if the output stage itself failed, still `Waiting` if an earlier stage
did). -/
lemma processStages_error (prompt : String) (sc : RunScenario)
    (extract : String → Option String) (s : AppState) (m : String)
    (hout : s.layers .output = ⟨"waiting", "Waiting"⟩)
    (hfail : firstFailure sc extract = some m) :
    ∃ s', processStages prompt sc extract s = some (s', some m) ∧
      (s'.layers .output).status = "waiting" ∧
      ((s'.layers .output).text = "Error" ∨ (s'.layers .output).text = "Waiting") := by
  cases htok : sc.tok with
  | throw mt =>
      obtain rfl : mt = m := by simpa [firstFailure, htok] using hfail
      simp only [processStages, runTokenization, htok]
      refine ⟨_, rfl, ?_, ?_⟩ <;>
        rw [updateLayerStatus_other _ _ _ _ _ (by decide), hout]
      exact Or.inr rfl
  | ok =>
  cases hemb : sc.emb with
  | throw mt =>
      obtain rfl : mt = m := by simpa [firstFailure, htok, hemb] using hfail
      simp only [processStages, runTokenization, runEmbeddings, htok, hemb]
      refine ⟨_, rfl, ?_, ?_⟩ <;>
        rw [updateLayerStatus_other _ _ _ _ _ (by decide),
          updateLayerStatus_other _ _ _ _ _ (by decide),
          updateLayerStatus_other _ _ _ _ _ (by decide), hout]
      exact Or.inr rfl
  | ok =>
  cases hattn : sc.attn with
  | throw mt =>
      obtain rfl : mt = m := by simpa [firstFailure, htok, hemb, hattn] using hfail
      simp only [processStages, runTokenization, runEmbeddings, runAttention,
        htok, hemb, hattn]
      refine ⟨_, rfl, ?_, ?_⟩ <;>
        rw [updateLayerStatus_other _ _ _ _ _ (by decide),
          updateLayerStatus_other _ _ _ _ _ (by decide),
          updateLayerStatus_other _ _ _ _ _ (by decide),
          updateLayerStatus_other _ _ _ _ _ (by decide),
          updateLayerStatus_other _ _ _ _ _ (by decide), hout]
      exact Or.inr rfl
  | ok =>
  cases hffn : sc.ffn with
  | throw mt =>
      obtain rfl : mt = m := by simpa [firstFailure, htok, hemb, hattn, hffn] using hfail
      simp only [processStages, runTokenization, runEmbeddings, runAttention,
        runFFN, htok, hemb, hattn, hffn]
      refine ⟨_, rfl, ?_, ?_⟩ <;>
        rw [updateLayerStatus_other _ _ _ _ _ (by decide),
          updateLayerStatus_other _ _ _ _ _ (by decide),
          updateLayerStatus_other _ _ _ _ _ (by decide),
          updateLayerStatus_other _ _ _ _ _ (by decide),
          updateLayerStatus_other _ _ _ _ _ (by decide),
          updateLayerStatus_other _ _ _ _ _ (by decide),
          updateLayerStatus_other _ _ _ _ _ (by decide), hout]
      exact Or.inr rfl
  | ok =>
      have hterm : firstFailure.firstTerminalError
          (streamCompletion extract sc.fetch) = some m := by
        simpa [firstFailure, htok, hemb, hattn, hffn] using hfail
      simp only [processStages, runTokenization, runEmbeddings, runAttention,
        runFFN, runOutputGeneration, htok, hemb, hattn, hffn]
      exact Exists.imp
        (fun s' h => ⟨h.1, by rw [h.2], by rw [h.2]; exact Or.inl rfl⟩)
        (runOutputEvents_error m (streamCompletion extract sc.fetch) _ 0 hterm)

/-- C4: whenever any stage of a started pipeline run throws
(including the streaming client firing `onError`), `process()`
terminates with the response surface showing `Error: <message>`, the
`output` stage status at a waiting/error label, the busy flag cleared
and the submit control re-enabled — no error path leaves the system
busy. -/
theorem process_error_recovery (inputValue : String) (sc : RunScenario)
    (extract : String → Option String) (s0 : AppState) (m : String)
    (hidle : s0.isProcessing = false)
    (hprompt : String.mk (jsTrim inputValue.data) ≠ "")
    (hfail : firstFailure sc extract = some m) :
    (process inputValue sc extract s0).responseOutput = "Error: " ++ m ∧
    ((process inputValue sc extract s0).layers .output).status = "waiting" ∧
    (((process inputValue sc extract s0).layers .output).text = "Error" ∨
      ((process inputValue sc extract s0).layers .output).text = "Waiting") ∧
    (process inputValue sc extract s0).isProcessing = false ∧
    (process inputValue sc extract s0).submitDisabled = false := by
  obtain ⟨s', hs', hstat, htext⟩ := processStages_error
    (String.mk (jsTrim inputValue.data)) sc extract
    { resetState { s0 with isProcessing := true, submitDisabled := true } with
      submitDisabled := true, isProcessing := true } m rfl hfail
  simp only [process, hidle, Bool.false_eq_true, if_false, if_neg hprompt, hs']
  exact ⟨trivial, hstat, htext, trivial, trivial⟩

/-- C4 witness: a network failure of the streaming stage
(`fetch` throws `"network down"`) on the prompt `"hi"` from the idle
initial state. -/
theorem process_error_recovery_witness :
    initialAppState.isProcessing = false ∧
    String.mk (jsTrim "hi".data) ≠ "" ∧
    firstFailure ⟨.ok, .ok, .ok, .ok, .throw "network down"⟩ (fun _ => none) =
      some "network down" ∧
    ((process "hi" ⟨.ok, .ok, .ok, .ok, .throw "network down"⟩
        (fun _ => none) initialAppState).responseOutput =
        "Error: " ++ "network down" ∧
      ((process "hi" ⟨.ok, .ok, .ok, .ok, .throw "network down"⟩
          (fun _ => none) initialAppState).layers .output).status = "waiting" ∧
      (((process "hi" ⟨.ok, .ok, .ok, .ok, .throw "network down"⟩
          (fun _ => none) initialAppState).layers .output).text = "Error" ∨
        ((process "hi" ⟨.ok, .ok, .ok, .ok, .throw "network down"⟩
          (fun _ => none) initialAppState).layers .output).text = "Waiting") ∧
      (process "hi" ⟨.ok, .ok, .ok, .ok, .throw "network down"⟩
        (fun _ => none) initialAppState).isProcessing = false ∧
      (process "hi" ⟨.ok, .ok, .ok, .ok, .throw "network down"⟩
        (fun _ => none) initialAppState).submitDisabled = false) :=
  ⟨rfl, by decide, rfl,
    process_error_recovery "hi" ⟨.ok, .ok, .ok, .ok, .throw "network down"⟩
      (fun _ => none) initialAppState "network down" rfl (by decide) rfl⟩

end LLMSimu
